import Mathlib

/-!
Verification of the nebula-backend multi-provider streaming chat gateway.

The definitions below are a shallow embedding of the JavaScript source:
strings are modelled as `List Char`, `JSON.parse` as a fuel-based JSON
parser (`Nebula.jsonParse`), and each route implementation is translated
function by function.  Source locations are given in the doc comments.
-/

namespace Nebula

/-- Characters of a string; the model of a JS string value. -/
def cs (s : String) : List Char := s.toList

/-- Model of JS `String.prototype.startsWith`: does `p` occur at the
head of `s`? -/
def leadsWith : List Char → List Char → Bool
  | [], _ => true
  | _ :: _, [] => false
  | p :: ps, c :: rest => p == c && leadsWith ps rest

/-- Model of JS `String.prototype.includes`: does `needle` occur
contiguously anywhere inside `hay`? -/
def hasSub (needle : List Char) : List Char → Bool
  | [] => leadsWith needle []
  | c :: rest => leadsWith needle (c :: rest) || hasSub needle rest

/-- Model of JS `String.prototype.split(sep)` for a one-character
separator: the list of fragments between occurrences of `sep`.
Always returns at least one fragment. -/
def splitOnChar (sep : Char) : List Char → List (List Char)
  | [] => [[]]
  | c :: rest =>
    if c == sep then [] :: splitOnChar sep rest
    else
      match splitOnChar sep rest with
      | [] => [[c]]
      | h :: t => (c :: h) :: t

/-- JSON values, the result type of the `JSON.parse` model. `jnum` keeps
the raw lexeme of the number (no claim inspects numeric values). -/
inductive Json where
  | null : Json
  | jbool (b : Bool) : Json
  | jnum (raw : List Char) : Json
  | jstr (s : List Char) : Json
  | jarr (elems : List Json) : Json
  | jobj (fields : List (List Char × Json)) : Json

/-- JSON whitespace. -/
def isWsChar (c : Char) : Bool :=
  ([' ', '\n', '\t', '\x0d'] : List Char).contains c

def skipWs (s : List Char) : List Char := s.dropWhile isWsChar

/-- Value of one hex digit (code-point arithmetic). -/
def hexVal (c : Char) : Option Nat :=
  let n := c.toNat
  if 48 ≤ n && n ≤ 57 then some (n - 48)
  else if 97 ≤ n && n ≤ 102 then some (n - 87)
  else if 65 ≤ n && n ≤ 70 then some (n - 55)
  else none

/-- JSON string escape characters (other than `\u`). -/
def escChar (e : Char) : Option Char :=
  if e == '"' then some '"'
  else if e == '\\' then some '\\'
  else if e == '/' then some '/'
  else if e == 'n' then some '\n'
  else if e == 't' then some '\t'
  else if e == 'r' then some '\r'
  else if e == 'b' then some (Char.ofNat 8)
  else if e == 'f' then some (Char.ofNat 12)
  else none

/-- Parse the body of a JSON string after the opening quote; returns the
decoded characters and the input remaining after the closing quote. -/
def parseStrBody : Nat → List Char → Option (List Char × List Char)
  | 0, _ => none
  | _ + 1, [] => none
  | fuel + 1, c :: rest =>
    if c == '"' then some ([], rest)
    else if c == '\\' then
      match rest with
      | [] => none
      | e :: rest2 =>
        if e == 'u' then
          match rest2 with
          | a :: b :: c2 :: d :: rest3 =>
            match hexVal a, hexVal b, hexVal c2, hexVal d with
            | some ha, some hb, some hc, some hd =>
              match parseStrBody fuel rest3 with
              | some (s, r) =>
                some (Char.ofNat (4096 * ha + 256 * hb + 16 * hc + hd) :: s, r)
              | none => none
            | _, _, _, _ => none
          | _ => none
        else
          match escChar e with
          | some ec =>
            match parseStrBody fuel rest2 with
            | some (s, r) => some (ec :: s, r)
            | none => none
          | none => none
    else
      match parseStrBody fuel rest with
      | some (s, r) => some (c :: s, r)
      | none => none

/-- Lex a JSON number starting at the head of `s`; returns the raw
lexeme and the rest.  Follows the JSON grammar
`-? (0 | [1-9][0-9]*) frac? exp?`. -/
def numLex (s : List Char) : Option (List Char × List Char) :=
  let (neg, s1) := match s with
    | '-' :: t => (['-'], t)
    | _ => (([] : List Char), s)
  let intp := s1.takeWhile Char.isDigit
  let r1 := s1.dropWhile Char.isDigit
  if intp.isEmpty then none
  else if intp.length > 1 && intp.headD '0' == '0' then none
  else
    let (fracp, r2) := match r1 with
      | '.' :: t =>
        let d := t.takeWhile Char.isDigit
        if d.isEmpty then ([], r1) else ('.' :: d, t.dropWhile Char.isDigit)
      | _ => (([] : List Char), r1)
    if r2 ≠ r1 || (match r1 with | '.' :: _ => false | _ => true) then
      let (expp, r3) := match r2 with
        | e :: t =>
          if e == 'e' || e == 'E' then
            let (sgn, t2) := match t with
              | '+' :: u => (['+'], u)
              | '-' :: u => (['-'], u)
              | _ => (([] : List Char), t)
            let d := t2.takeWhile Char.isDigit
            if d.isEmpty then ([], r2)
            else (e :: (sgn ++ d), t2.dropWhile Char.isDigit)
          else ([], r2)
        | [] => (([] : List Char), r2)
      some (neg ++ intp ++ fracp ++ expp, r3)
    else none

mutual

/-- Fuel-based JSON value parser; the model of `JSON.parse` (success
means the remaining input, after whitespace, is consumed by the caller). -/
def parseVal : Nat → List Char → Option (Json × List Char)
  | 0, _ => none
  | fuel + 1, s =>
    let s' := skipWs s
    if leadsWith (cs "true") s' then some (.jbool true, s'.drop 4)
    else if leadsWith (cs "false") s' then some (.jbool false, s'.drop 5)
    else if leadsWith (cs "null") s' then some (.null, s'.drop 4)
    else
      match s' with
      | [] => none
      | c :: rest =>
        if c == '"' then
          match parseStrBody (fuel + 1) rest with
          | some (str, r) => some (.jstr str, r)
          | none => none
        else if c == '\x7b' then
          match skipWs rest with
          | c2 :: rest2 =>
            if c2 == '\x7d' then some (.jobj [], rest2)
            else parseMembers fuel (skipWs rest) []
          | [] => none
        else if c == '[' then
          match skipWs rest with
          | c2 :: rest2 =>
            if c2 == ']' then some (.jarr [], rest2)
            else parseItems fuel (skipWs rest) []
          | [] => none
        else if c == '-' || c.isDigit then
          match numLex s' with
          | some (raw, r) => some (.jnum raw, r)
          | none => none
        else none

/-- Parse the members of a JSON object (after the opening brace, at the
first key). -/
def parseMembers : Nat → List Char → List (List Char × Json) →
    Option (Json × List Char)
  | 0, _, _ => none
  | fuel + 1, s, acc =>
    match skipWs s with
    | '"' :: rest =>
      match parseStrBody (fuel + 1) rest with
      | some (k, r1) =>
        match skipWs r1 with
        | ':' :: r2 =>
          match parseVal fuel r2 with
          | some (v, r3) =>
            match skipWs r3 with
            | ',' :: r4 => parseMembers fuel r4 (acc ++ [(k, v)])
            | c :: r4 =>
              if c == '\x7d' then some (.jobj (acc ++ [(k, v)]), r4) else none
            | [] => none
          | none => none
        | _ => none
      | none => none
    | _ => none

/-- Parse the elements of a JSON array (after the opening bracket, at the
first element). -/
def parseItems : Nat → List Char → List Json → Option (Json × List Char)
  | 0, _, _ => none
  | fuel + 1, s, acc =>
    match parseVal fuel s with
    | some (v, r1) =>
      match skipWs r1 with
      | ',' :: r2 => parseItems fuel r2 (acc ++ [v])
      | c :: r2 => if c == ']' then some (.jarr (acc ++ [v]), r2) else none
      | [] => none
    | none => none

end

/-- Model of `JSON.parse`: parse a complete JSON document, rejecting
trailing garbage; `none` models a thrown `SyntaxError`. -/
def jsonParse (s : List Char) : Option Json :=
  match parseVal (s.length + 1) s with
  | some (j, rest) => if (skipWs rest).isEmpty then some j else none
  | none => none

/-- Model of JS property access `obj.key` / `obj?.key`: `none` when the
value is not an object or lacks the key.  JS objects keep the *last*
binding of a duplicated key, hence the right-biased lookup. -/
def jget (j : Json) (key : List Char) : Option Json :=
  match j with
  | .jobj fields => lookupLast key fields
  | _ => none
where
  lookupLast (k : List Char) : List (List Char × Json) → Option Json
    | [] => none
    | (k', v) :: rest =>
      match lookupLast k rest with
      | some r => some r
      | none => if k' == k then some v else none

/-- Model of JS array indexing `arr?.[i]`. -/
def jidx (j : Json) (i : Nat) : Option Json :=
  match j with
  | .jarr elems => elems.get? i
  | _ => none

/-- Is the leading (mantissa) part of a number lexeme all zeroes? -/
def numIsZero (raw : List Char) : Bool :=
  (raw.takeWhile (fun c => c != 'e' && c != 'E')).all
    (fun c => !c.isDigit || c == '0')

/-- JS truthiness of a parsed JSON value. -/
def jtruthy : Json → Bool
  | .null => false
  | .jbool b => b
  | .jnum raw => !numIsZero raw
  | .jstr s => !s.isEmpty
  | .jarr _ => true
  | .jobj _ => true

/-- Truthiness of an optional JS string (absent, `''` and `'auto'`-style
checks use this). -/
def strTruthy : Option (List Char) → Bool
  | none => false
  | some s => !s.isEmpty

/-- Normalized stream events: the only vocabulary relayed to the client.
`textDelta` carries the JSON value written into the `text` field of the
outgoing frame. -/
inductive Event where
  | textDelta (t : Json) : Event
  | done : Event
  | error (msg : List Char) : Event

def Event.isDelta : Event → Bool
  | .textDelta _ => true
  | _ => false

def Event.isTerminal : Event → Bool
  | .done => true
  | .error _ => true
  | _ => false

def Event.isErr : Event → Bool
  | .error _ => true
  | _ => false

/-- One role-tagged chat message. -/
structure Msg where
  role : List Char
  content : List Char
deriving DecidableEq, Repr

/-- The credential environment (`process.env.*_API_KEY`). -/
structure Env where
  anthropicKey : Option (List Char)
  openaiKey : Option (List Char)
  groqKey : Option (List Char)
  geminiKey : Option (List Char)

/-- An environment with no credential configured at all. -/
def Env.empty : Env := ⟨none, none, none, none⟩

/-- A provider registry entry (`PROVIDERS` tables in the source). -/
structure ProviderCfg where
  name : List Char
  url : List Char
  models : List (List Char)
  getKey : Env → Option (List Char)

/-- A resolved (provider, model) pair. -/
structure Selection where
  provider : List Char
  model : List Char
deriving DecidableEq, Repr

/-- One entry of the `GET /models` response. -/
structure ModelEntry where
  provider : List Char
  model : List Char
  id : List Char
deriving DecidableEq, Repr

/-- One element of a Gemini `contents` array: `{role, parts:[{text}]}`,
with each part holding one text. -/
structure GContent where
  role : List Char
  parts : List (List Char)
deriving DecidableEq, Repr

/-- A Gemini HTTP request as built by the source: URL, headers, the
`contents` array and the optional `systemInstruction` field (its list of
part texts). -/
structure GeminiReq where
  url : List Char
  headers : List (List Char × List Char)
  contents : List GContent
  systemInstruction : Option (List (List Char))
deriving DecidableEq, Repr

/-!  ## src/server/routes/ai.js  -/

namespace AiRoutes

/-- `PROVIDERS` table, src/server/routes/ai.js lines 7-28. -/
def PROVIDERS : List ProviderCfg :=
  [ ⟨cs "anthropic", cs "https://api.anthropic.com/v1/messages",
      [cs "claude-sonnet-4-20250514", cs "claude-3-5-haiku-20241022"],
      Env.anthropicKey⟩
  , ⟨cs "openai", cs "https://api.openai.com/v1/chat/completions",
      [cs "gpt-4o", cs "gpt-4o-mini"], Env.openaiKey⟩
  , ⟨cs "groq", cs "https://api.groq.com/openai/v1/chat/completions",
      [cs "llama-3.3-70b-versatile", cs "llama-3.1-8b-instant"], Env.groqKey⟩
  , ⟨cs "gemini", cs "https://generativelanguage.googleapis.com/v1beta/models",
      [cs "gemini-1.5-pro", cs "gemini-1.5-flash"], Env.geminiKey⟩ ]

/-- `PROVIDERS[provider]` truthiness: does the registry know `p`? -/
def registryHas (p : List Char) : Bool :=
  (PROVIDERS.find? (fun cfg => cfg.name == p)).isSome

/-- `SYSTEM_PROMPT`, src/server/routes/ai.js lines 30-45. -/
def SYSTEM_PROMPT : List Char :=
  cs "You are an expert full-stack developer AI assistant. You help users build web applications, debug code, and solve programming problems.\n\nRULES:\n1. Always provide complete, working code\n2. Use modern best practices\n3. Include helpful comments\n4. When creating files, use this format:\n\n**filename.ext**\n```language\ncode here\n```\n\n5. For multi-file projects, create all necessary files\n6. Explain your approach briefly before code\n7. If you see errors, explain the fix clearly"

/-- Complexity keywords, src/server/routes/ai.js line 49. -/
def complexKeywords : List (List Char) :=
  [cs "build", cs "create", cs "full", cs "complex", cs "application",
   cs "system", cs "complete", cs "production"]

/-- `message.toLowerCase().includes(k)` over all keywords,
src/server/routes/ai.js line 50. -/
def isComplex (message : List Char) : Bool :=
  complexKeywords.any (fun k => hasSub k (message.map Char.toLower))

/-- `selectModel`, src/server/routes/ai.js lines 48-66: credential
priority Anthropic > OpenAI > Groq > Gemini; the keyword heuristic picks
the larger model. -/
def selectModel (message : List Char) (env : Env) : Option Selection :=
  if strTruthy env.anthropicKey then
    some ⟨cs "anthropic",
      if isComplex message then cs "claude-sonnet-4-20250514"
      else cs "claude-3-5-haiku-20241022"⟩
  else if strTruthy env.openaiKey then
    some ⟨cs "openai", if isComplex message then cs "gpt-4o" else cs "gpt-4o-mini"⟩
  else if strTruthy env.groqKey then
    some ⟨cs "groq", cs "llama-3.3-70b-versatile"⟩
  else if strTruthy env.geminiKey then
    some ⟨cs "gemini",
      if isComplex message then cs "gemini-1.5-pro" else cs "gemini-1.5-flash"⟩
  else none

/-- The inlined model-resolution block shared verbatim by
`router.post('/stream')` (lines 84-95) and `router.post('/chat')`
(lines 268-278) in src/server/routes/ai.js. -/
def pickModel (model : Option (List Char)) (message : List Char) (env : Env) :
    Option Selection :=
  match model with
  | some m =>
    if !m.isEmpty && m != cs "auto" then
      let parts := if hasSub (cs "/") m then splitOnChar '/' m else [cs "auto", m]
      let provider := parts.headD []
      let modelName := parts.getD 1 []
      if provider != cs "auto" && registryHas provider then
        some ⟨provider, modelName⟩
      else selectModel message env
    else selectModel message env
  | none => selectModel message env

/-- Messages array build, src/server/routes/ai.js lines 107-110:
`[...context.slice(-10), { role: 'user', content: message }]`. -/
def buildMessages (context : List Msg) (message : List Char) : List Msg :=
  context.drop (context.length - 10) ++ [⟨cs "user", message⟩]

/-- The per-line handler of the anthropic streaming branch,
src/server/routes/ai.js lines 143-154: a `data: ` line whose payload is
not the `[DONE]` sentinel is JSON-parsed; a `content_block_delta` with a
truthy `delta.text` emits that text, anything else (including a parse
failure) is silently dropped. -/
def anthropicLineEvent (line : List Char) : Option Event :=
  if leadsWith (cs "data: ") line then
    let d := line.drop 6
    if d == cs "[DONE]" then none
    else
      match jsonParse d with
      | none => none
      | some parsed =>
        if (match jget parsed (cs "type") with
            | some (.jstr s) => s == cs "content_block_delta"
            | _ => false) then
          match (jget parsed (cs "delta")).bind (fun dl => jget dl (cs "text")) with
          | some tv => if jtruthy tv then some (.textDelta tv) else none
          | none => none
        else none
  else none

/-- One `reader.on('data')` step, src/server/routes/ai.js lines 138-141:
append the chunk to the buffer, split on newline, keep the final
(possibly incomplete) fragment as the new buffer and return the complete
lines. -/
def processChunk (buffer chunk : List Char) : List (List Char) × List Char :=
  let lines := splitOnChar '\n' (buffer ++ chunk)
  (lines.dropLast, lines.getLastD [])

/-- Iterate `processChunk` over all received chunks starting from
`buffer`; returns all complete lines in order and the final buffer. -/
def runChunks (buffer : List Char) : List (List Char) → List (List Char) × List Char
  | [] => ([], buffer)
  | c :: rest =>
    let p := processChunk buffer c
    let r := runChunks p.2 rest
    (p.1 ++ r.1, r.2)

/-- TextDelta events produced by the buffered anthropic stream
normalizer (src/server/routes/ai.js lines 135-155) for a list of network
chunks. -/
def anthropicStreamEvents (chunks : List (List Char)) : List Event :=
  ((runChunks [] chunks).1).filterMap anthropicLineEvent

/-- The possible executions of `router.post('/stream')` after headers are
flushed, src/server/routes/ai.js lines 83-256: selection fails (lines
97-101); the awaited fetch throws, reaching the catch (lines 252-256);
the response body streams to completion, firing `end` (lines 135-160);
or the response body emits a stream `'error'` event after `chunks` have
been delivered — the source registers only `'data'` and `'end'` handlers
(lines 138, 157), so in that execution `end` never fires and the catch
(whose `try` block has already been exited once the handlers were
attached) cannot run either; `msg` is the upstream error message, which
never reaches the client. -/
inductive StreamOutcome where
  | noProvider : StreamOutcome
  | fetchError (msg : List Char) : StreamOutcome
  | streamed (chunks : List (List Char)) : StreamOutcome
  | bodyError (chunks : List (List Char)) (msg : List Char) : StreamOutcome

/-- The full event sequence written to the client connection in each
execution: the pre-stream error paths write exactly one Error frame, the
`end` handler (lines 157-160) appends exactly one Done — but on a
mid-stream body error no handler is registered, so nothing at all is
written after the deltas already emitted. -/
def streamRun : StreamOutcome → List Event
  | .noProvider => [.error (cs "No AI provider configured")]
  | .fetchError m => [.error m]
  | .streamed chunks => anthropicStreamEvents chunks ++ [.done]
  | .bodyError chunks _ => anthropicStreamEvents chunks

/-- `router.get('/models')`, src/server/routes/ai.js lines 356-366. -/
def getModels (env : Env) : List ModelEntry :=
  (PROVIDERS.filter (fun cfg => strTruthy (cfg.getKey env))).flatMap
    (fun cfg => cfg.models.map (fun m => ⟨cfg.name, m, cfg.name ++ cs "/" ++ m⟩))

/-- What `router.post('/chat')` does before contacting any provider. -/
inductive ChatOutcome where
  | errorResp (status : Nat) (msg : List Char) : ChatOutcome
  | callProvider (sel : Selection) : ChatOutcome
deriving DecidableEq

/-- Model selection of `router.post('/chat')`, src/server/routes/ai.js
lines 267-281: a failed selection is answered with an explicit 500 JSON
error payload, not an exception. -/
def chatDispatch (model : Option (List Char)) (message : List Char) (env : Env) :
    ChatOutcome :=
  match pickModel model message env with
  | none => .errorResp 500 (cs "No AI provider configured")
  | some sel => .callProvider sel

/-- The gemini request built by the streaming branch,
src/server/routes/ai.js lines 209-225: URL templated with the model as a
path segment plus the API key as a query parameter, no auth header, and
the system prompt prepended to `contents` as a user message (there is no
`systemInstruction` field in this branch). -/
def geminiStreamReq (selectedModel apiKey : List Char) (messages : List Msg) :
    GeminiReq :=
  { url := cs "https://generativelanguage.googleapis.com/v1beta/models" ++
      cs "/" ++ selectedModel ++ cs ":streamGenerateContent?key=" ++ apiKey
  , headers := [(cs "Content-Type", cs "application/json")]
  , contents := ⟨cs "user", [SYSTEM_PROMPT]⟩ ::
      messages.map (fun m =>
        ⟨if m.role == cs "assistant" then cs "model" else cs "user", [m.content]⟩)
  , systemInstruction := none }

end AiRoutes

/-!  ## The second AI router concatenated into src/server/index.js
     (lines 134-425 of that file)  -/

namespace ServerIndex

/-- `PROVIDERS` table, src/server/index.js lines 139-160 (note the
haiku model differs from the routes/ai.js table). -/
def PROVIDERS : List ProviderCfg :=
  [ ⟨cs "anthropic", cs "https://api.anthropic.com/v1/messages",
      [cs "claude-sonnet-4-20250514", cs "claude-3-haiku-20240307"],
      Env.anthropicKey⟩
  , ⟨cs "openai", cs "https://api.openai.com/v1/chat/completions",
      [cs "gpt-4o", cs "gpt-4o-mini"], Env.openaiKey⟩
  , ⟨cs "groq", cs "https://api.groq.com/openai/v1/chat/completions",
      [cs "llama-3.3-70b-versatile", cs "llama-3.1-8b-instant"], Env.groqKey⟩
  , ⟨cs "gemini", cs "https://generativelanguage.googleapis.com/v1beta/models",
      [cs "gemini-1.5-pro", cs "gemini-1.5-flash"], Env.geminiKey⟩ ]

def registryHas (p : List Char) : Bool :=
  (PROVIDERS.find? (fun cfg => cfg.name == p)).isSome

/-- `PROVIDERS[provider].models[0]`. -/
def defaultModel (p : List Char) : List Char :=
  match PROVIDERS.find? (fun cfg => cfg.name == p) with
  | some cfg => cfg.models.headD []
  | none => []

/-- Complexity keywords, src/server/index.js line 182 (ends in `'app'`
where routes/ai.js has `'production'`). -/
def complexKeywords : List (List Char) :=
  [cs "build", cs "create", cs "full", cs "complex", cs "application",
   cs "system", cs "complete", cs "app"]

def isComplex (message : List Char) : Bool :=
  complexKeywords.any (fun k => hasSub k (message.map Char.toLower))

/-- `selectModel`, src/server/index.js lines 181-198. -/
def selectModel (message : List Char) (env : Env) : Option Selection :=
  if strTruthy env.anthropicKey then
    some ⟨cs "anthropic",
      if isComplex message then cs "claude-sonnet-4-20250514"
      else cs "claude-3-haiku-20240307"⟩
  else if strTruthy env.openaiKey then
    some ⟨cs "openai", if isComplex message then cs "gpt-4o" else cs "gpt-4o-mini"⟩
  else if strTruthy env.groqKey then
    some ⟨cs "groq", cs "llama-3.3-70b-versatile"⟩
  else if strTruthy env.geminiKey then
    some ⟨cs "gemini",
      if isComplex message then cs "gemini-1.5-pro" else cs "gemini-1.5-flash"⟩
  else none

/-- `parseModel`, src/server/index.js lines 200-209.  An absent, empty
or `'auto'` model falls to `selectModel`; a `provider/model` string with
a known provider is used directly (with `models[0]` as the default when
the model part is empty); everything else falls to `selectModel`. -/
def parseModel (model : Option (List Char)) (message : List Char) (env : Env) :
    Option Selection :=
  if !strTruthy model || model == some (cs "auto") then selectModel message env
  else
    let m := model.getD []
    let parts := if hasSub (cs "/") m then splitOnChar '/' m else [cs "auto", m]
    let provider := parts.headD []
    let modelName := parts.getD 1 []
    if provider != cs "auto" && registryHas provider then
      some ⟨provider, if modelName.isEmpty then defaultModel provider else modelName⟩
    else selectModel message env

/-- The text extraction of the non-streaming gemini call,
src/server/index.js line 332:
`data.candidates?.[0]?.content?.parts?.[0]?.text || 'No response'`. -/
def extractGeminiText (data : Json) : Json :=
  match ((((jget data (cs "candidates")).bind (fun j => jidx j 0)).bind
      (fun j => jget j (cs "content"))).bind
      (fun j => jget j (cs "parts"))).bind
      (fun j => (jidx j 0).bind (fun p => jget p (cs "text"))) with
  | some v => if jtruthy v then v else .jstr (cs "No response")
  | none => .jstr (cs "No response")

/-- Events written by the gemini branch of `router.post('/stream')`,
src/server/index.js lines 320-336: one blocking `generateContent` call,
then a single text frame holding the full extracted text, then the done
frame. -/
def geminiStreamEvents (data : Json) : List Event :=
  [.textDelta (extractGeminiText data), .done]

end ServerIndex

/-!  ## src/unnamed/part_002: two further AI routers  -/

namespace PartTwo

/-- `GEMINI_KEY`, src/unnamed/part_002 line 142 (hardcoded in the
source as two concatenated string literals). -/
def GEMINI_KEY : List Char := cs "AIzaSyBxBNue7IF23ohGEEu" ++ cs "UjgDZ7VMFGvbaTtk"

/-- `SYSTEM_PROMPT`, src/unnamed/part_002 lines 144-160. -/
def SYSTEM_PROMPT : List Char :=
  cs "You are an AI coding assistant. Your ONLY job is to output working code.\n\nRULES:\n1. ALWAYS respond with a complete HTML file - no exceptions\n2. NEVER have conversations, ask questions, or explain - just output code\n3. If the request is vague, make something cool (a button, animation, game, etc.)\n4. Include ALL code in one HTML file with <style> and <script> tags\n5. Make it visually appealing - use nice colors, modern design\n6. Always start with <!DOCTYPE html> and end with </html>\n7. NO markdown explanations before or after - ONLY the HTML code\n\nExample response format:\n<!DOCTYPE html>\n<html>\n<head>...</head>\n<body>...</body>\n</html>"

/-- The per-line handler of the claude streaming branch,
src/unnamed/part_002 lines 253-262: a `data: ` line is JSON-parsed and a
`content_block_delta` emits `data.delta?.text || ''`; there is no
`[DONE]` check here. -/
def claudeLineEvent (line : List Char) : Option Event :=
  if leadsWith (cs "data: ") line then
    match jsonParse (line.drop 6) with
    | none => none
    | some data =>
      if (match jget data (cs "type") with
          | some (.jstr s) => s == cs "content_block_delta"
          | _ => false) then
        some (.textDelta
          (match (jget data (cs "delta")).bind (fun dl => jget dl (cs "text")) with
           | some v => if jtruthy v then v else .jstr []
           | none => .jstr []))
      else none
  else none

/-- TextDelta events of the claude streaming branch,
src/unnamed/part_002 lines 251-263: each chunk is split on newline
independently and every fragment (including a trailing incomplete one)
is handed to the line handler — there is no carry-over buffer. -/
def claudeStreamEvents (chunks : List (List Char)) : List Event :=
  (chunks.map (splitOnChar '\n')).flatten.filterMap claudeLineEvent

/-- The gemini request built by the `/chat` route of the first router in
src/unnamed/part_002, lines 107-120: roles renamed
(`assistant`→`model`), each message wrapped as `{role, parts:[{text}]}`,
the system prompt in a separate `systemInstruction` field, and the URL
templated with the model as a path segment plus the key as a query
parameter (the only header is `Content-Type`). -/
def geminiChatReq (modelId : List Char) (messages : List Msg) : GeminiReq :=
  { url := cs "https://generativelanguage.googleapis.com/v1beta/models/" ++
      modelId ++ cs ":generateContent?key=" ++ GEMINI_KEY
  , headers := [(cs "Content-Type", cs "application/json")]
  , contents := messages.map (fun m =>
      ⟨if m.role == cs "assistant" then cs "model" else cs "user", [m.content]⟩)
  , systemInstruction := some [SYSTEM_PROMPT] }

end PartTwo

/-!  ## Test fixtures and helper functions for the theorems  -/

/-- Merge two split results: the last fragment of `xs` is glued to the
first fragment of `ys` (the shape of `splitOnChar` on an append). -/
def joinLast : List (List Char) → List (List Char) → List (List Char)
  | [], ys => ys
  | [x], ys =>
    match ys with
    | [] => [x]
    | y :: t => (x ++ y) :: t
  | x :: x2 :: xs, ys => x :: joinLast (x2 :: xs) ys

/-- First half of an anthropic SSE frame cut mid-JSON, simulating a TCP
chunk boundary inside a `data: ...` line. -/
def cexChunkA : List Char := cs "data: \x7b\"type\":\"conte"

/-- Second half of the frame of `cexChunkA` (ends with the newline). -/
def cexChunkB : List Char :=
  cs "nt_block_delta\",\"delta\":\x7b\"text\":\"Hi\"\x7d\x7d\n"

/-- A well-formed anthropic delta frame carrying the text "A". -/
def validFrameA : List Char :=
  cs "data: \x7b\"type\":\"content_block_delta\",\"delta\":\x7b\"text\":\"A\"\x7d\x7d"

/-- A well-formed anthropic delta frame carrying the text "B". -/
def validFrameB : List Char :=
  cs "data: \x7b\"type\":\"content_block_delta\",\"delta\":\x7b\"text\":\"B\"\x7d\x7d"

/-- A `data:` frame whose payload is not valid JSON. -/
def malformedFrame : List Char := cs "data: \x7boops"

/-- A concrete Gemini `generateContent` response whose first candidate's
first part carries the text `t`. -/
def mkGeminiResp (t : List Char) : Json :=
  .jobj [(cs "candidates", .jarr [.jobj [(cs "content",
    .jobj [(cs "parts", .jarr [.jobj [(cs "text", .jstr t)]])])]])]

/-!  ## Helper lemmas  -/

theorem splitOnChar_ne_nil (sep : Char) (s : List Char) : splitOnChar sep s ≠ [] := by
  induction s with
  | nil => simp [splitOnChar]
  | cons c rest ih =>
    simp only [splitOnChar]
    split
    · simp
    · split <;> simp

theorem splitOnChar_sep_free {sep : Char} {s : List Char} (h : sep ∉ s) :
    splitOnChar sep s = [s] := by
  induction s with
  | nil => rfl
  | cons c rest ih =>
    have hc : (c == sep) = false := by
      simp only [beq_eq_false_iff_ne]
      intro he
      exact h (he ▸ List.mem_cons_self c rest)
    have hr : sep ∉ rest := fun hm => h (List.mem_cons_of_mem _ hm)
    simp only [splitOnChar, hc, Bool.false_eq_true, if_false, ih hr]

theorem splitOnChar_cons_sep {sep : Char} {a : List Char} (b : List Char)
    (h : sep ∉ a) : splitOnChar sep (a ++ sep :: b) = a :: splitOnChar sep b := by
  induction a with
  | nil => simp [splitOnChar]
  | cons c a' ih =>
    have hc : (c == sep) = false := by
      simp only [beq_eq_false_iff_ne]
      intro he
      exact h (he ▸ List.mem_cons_self c a')
    have ha : sep ∉ a' := fun hm => h (List.mem_cons_of_mem _ hm)
    simp only [List.cons_append, splitOnChar, hc, Bool.false_eq_true, if_false,
      List.append_eq, ih ha]

theorem splitOnChar_append (sep : Char) (a b : List Char) :
    splitOnChar sep (a ++ b) =
      joinLast (splitOnChar sep a) (splitOnChar sep b) := by
  induction a with
  | nil =>
    obtain ⟨h, t, hht⟩ := List.exists_cons_of_ne_nil (splitOnChar_ne_nil sep b)
    simp [splitOnChar, joinLast, hht]
  | cons c a' ih =>
    obtain ⟨h, t, hht⟩ := List.exists_cons_of_ne_nil (splitOnChar_ne_nil sep a')
    by_cases hc : c = sep
    · have hcb : (c == sep) = true := by simp [hc]
      simp only [List.cons_append, splitOnChar, hcb, if_true, List.append_eq,
        ih, hht, joinLast]
    · have hcb : (c == sep) = false := by simp [hc]
      simp only [List.cons_append, splitOnChar, hcb, Bool.false_eq_true,
        if_false, List.append_eq, ih, hht]
      cases t with
      | nil =>
        obtain ⟨h3, t3, hht3⟩ := List.exists_cons_of_ne_nil (splitOnChar_ne_nil sep b)
        simp [joinLast, hht3]
      | cons x xs => simp [joinLast]

/-- The final fragment of a split never contains the separator. -/
theorem splitOnChar_last_no_sep (sep : Char) (s : List Char) :
    sep ∉ (splitOnChar sep s).getLastD [] := by
  induction s with
  | nil => simp [splitOnChar]
  | cons c rest ih =>
    obtain ⟨h, t, hht⟩ := List.exists_cons_of_ne_nil (splitOnChar_ne_nil sep rest)
    by_cases hc : c = sep
    · have hcb : (c == sep) = true := by simp [hc]
      simp only [splitOnChar, hcb, if_true, hht, List.getLastD_cons]
      rw [hht] at ih
      cases t with
      | nil => simpa using ih
      | cons x xs => simpa [List.getLastD_cons] using ih
    · have hcb : (c == sep) = false := by simp [hc]
      simp only [splitOnChar, hcb, Bool.false_eq_true, if_false, hht]
      rw [hht] at ih
      cases t with
      | nil =>
        simp only [List.getLastD_cons, List.getLastD_nil] at ih ⊢
        simp only [List.mem_cons, not_or]
        exact ⟨fun he => hc he.symm, by simpa using ih⟩
      | cons x xs => simpa [List.getLastD_cons] using ih

theorem joinLast_cons_cons (x : List Char) (l ys : List (List Char)) (h : l ≠ []) :
    joinLast (x :: l) ys = x :: joinLast l ys := by
  obtain ⟨h1, t1, ht⟩ := List.exists_cons_of_ne_nil h
  simp [ht, joinLast]

theorem joinLast_ne_nil (xs ys : List (List Char)) (hxs : xs ≠ []) :
    joinLast xs ys ≠ [] := by
  induction xs with
  | nil => cases hxs rfl
  | cons x xs' ih =>
    cases xs' with
    | nil => cases ys <;> simp [joinLast]
    | cons x2 xs'' =>
      rw [joinLast_cons_cons x (x2 :: xs'') ys (by simp)]
      simp

theorem getLastD_irrel {α : Type} (l : List α) (d d' : α) (h : l ≠ []) :
    l.getLastD d = l.getLastD d' := by
  obtain ⟨v, hv⟩ := Option.isSome_iff_exists.mp (List.getLast?_isSome.mpr h)
  simp [List.getLastD_eq_getLast?, hv]

theorem joinLast_dropLast (xs ys : List (List Char)) (hxs : xs ≠ []) (hys : ys ≠ []) :
    (joinLast xs ys).dropLast =
      xs.dropLast ++ ((xs.getLastD [] ++ ys.headD []) :: ys.tail).dropLast ∧
    (joinLast xs ys).getLastD [] =
      ((xs.getLastD [] ++ ys.headD []) :: ys.tail).getLastD [] := by
  induction xs with
  | nil => cases hxs rfl
  | cons x xs' ih =>
    cases xs' with
    | nil =>
      obtain ⟨y, t, hyt⟩ := List.exists_cons_of_ne_nil hys
      subst hyt
      simp [joinLast, List.getLastD_cons]
    | cons x2 xs'' =>
      obtain ⟨hd, hl⟩ := ih (by simp)
      rw [joinLast_cons_cons x (x2 :: xs'') ys (by simp)]
      have hne : joinLast (x2 :: xs'') ys ≠ [] :=
        joinLast_ne_nil (x2 :: xs'') ys (by simp)
      have e1 : (x :: x2 :: xs'').getLastD ([] : List Char) =
          (x2 :: xs'').getLastD [] := by
        rw [List.getLastD_cons, getLastD_irrel (x2 :: xs'') x [] (by simp)]
      have e2 : (x :: x2 :: xs'').dropLast = x :: (x2 :: xs'').dropLast :=
        List.dropLast_cons_of_ne_nil (by simp)
      constructor
      · rw [List.dropLast_cons_of_ne_nil hne, hd, e2, e1, List.cons_append]
      · rw [List.getLastD_cons,
          getLastD_irrel (joinLast (x2 :: xs'') ys) x [] hne, hl, e1]

theorem runChunks_cons (buffer c : List Char) (rest : List (List Char)) :
    AiRoutes.runChunks buffer (c :: rest) =
      ((AiRoutes.processChunk buffer c).1 ++
        (AiRoutes.runChunks (AiRoutes.processChunk buffer c).2 rest).1,
       (AiRoutes.runChunks (AiRoutes.processChunk buffer c).2 rest).2) := rfl

/-- The complete lines handed to the line handler by the buffered chunk
loop are exactly the line-split of the whole received byte sequence,
minus the final (incomplete) fragment — regardless of chunking. -/
theorem runChunks_spec :
    ∀ (chunks : List (List Char)) (buffer : List Char), '\n' ∉ buffer →
    (AiRoutes.runChunks buffer chunks).1 =
      (splitOnChar '\n' (buffer ++ chunks.flatten)).dropLast ∧
    (AiRoutes.runChunks buffer chunks).2 =
      (splitOnChar '\n' (buffer ++ chunks.flatten)).getLastD []
  | [], buffer, hb => by
    rw [List.flatten_nil, List.append_nil, splitOnChar_sep_free hb]
    exact ⟨rfl, rfl⟩
  | c :: rest, buffer, hb => by
    have hlast : '\n' ∉ (splitOnChar '\n' (buffer ++ c)).getLastD [] :=
      splitOnChar_last_no_sep '\n' (buffer ++ c)
    obtain ⟨ih1, ih2⟩ := runChunks_spec rest
      ((splitOnChar '\n' (buffer ++ c)).getLastD []) hlast
    have hQne := splitOnChar_ne_nil '\n' rest.flatten
    obtain ⟨q, qt, hq⟩ := List.exists_cons_of_ne_nil hQne
    have hPne := splitOnChar_ne_nil '\n' (buffer ++ c)
    have key : splitOnChar '\n' ((splitOnChar '\n' (buffer ++ c)).getLastD [] ++
        rest.flatten) =
        ((splitOnChar '\n' (buffer ++ c)).getLastD [] ++
          (splitOnChar '\n' rest.flatten).headD []) ::
          (splitOnChar '\n' rest.flatten).tail := by
      rw [splitOnChar_append, splitOnChar_sep_free hlast, hq]
      simp [joinLast]
    have hwhole : splitOnChar '\n' (buffer ++ (c :: rest).flatten) =
        joinLast (splitOnChar '\n' (buffer ++ c))
          (splitOnChar '\n' rest.flatten) := by
      rw [List.flatten_cons, ← List.append_assoc, splitOnChar_append]
    obtain ⟨jd, jl⟩ := joinLast_dropLast (splitOnChar '\n' (buffer ++ c))
      (splitOnChar '\n' rest.flatten) hPne hQne
    constructor
    · rw [runChunks_cons]
      show (splitOnChar '\n' (buffer ++ c)).dropLast ++
        (AiRoutes.runChunks ((splitOnChar '\n' (buffer ++ c)).getLastD [])
          rest).1 = _
      rw [ih1, key, hwhole, jd]
    · rw [runChunks_cons]
      show (AiRoutes.runChunks ((splitOnChar '\n' (buffer ++ c)).getLastD [])
        rest).2 = _
      rw [ih2, key, hwhole, jl]

theorem hasSub_single_true {c : Char} {s : List Char} (h : c ∈ s) :
    hasSub [c] s = true := by
  induction s with
  | nil => cases h
  | cons x t ih =>
    rcases List.mem_cons.mp h with rfl | hm
    · simp [hasSub, leadsWith]
    · simp [hasSub, ih hm]

theorem hasSub_single_false {c : Char} {s : List Char} (h : c ∉ s) :
    hasSub [c] s = false := by
  induction s with
  | nil => rfl
  | cons x t ih =>
    have hx : c ≠ x := fun he => h (he ▸ List.mem_cons_self x t)
    have ht : c ∉ t := fun hm => h (List.mem_cons_of_mem _ hm)
    simp [hasSub, leadsWith, ih ht, hx]

/-- `anthropicLineEvent` can only ever produce a TextDelta: the per-chunk
handler emits no terminal event. -/
theorem anthropicLineEvent_delta (l : List Char) (e : Event)
    (h : AiRoutes.anthropicLineEvent l = some e) : Event.isDelta e = true := by
  unfold AiRoutes.anthropicLineEvent at h
  dsimp only at h
  split at h
  · split at h
    · exact absurd h (by simp)
    · split at h
      · exact absurd h (by simp)
      · split at h
        · split at h
          · split at h
            · cases h
              rfl
            · exact absurd h (by simp)
          · exact absurd h (by simp)
        · exact absurd h (by simp)
  · exact absurd h (by simp)

/-!  ## Claim theorems  -/

/-- C1 (amended): the buffered SSE normalizer of the anthropic branch in
src/server/routes/ai.js (accumulation buffer, split on newline, all but
the last fragment are complete lines, remainder carried into the next
chunk) emits the identical sequence of TextDelta events for any chunking
of the input bytes as for the same bytes fed in one single chunk.  (The
claim in this generality is refuted by the unbuffered claude branch of
src/unnamed/part_002, see the counterexample.) -/
theorem anthropic_stream_chunk_invariant (chunks : List (List Char)) :
    AiRoutes.anthropicStreamEvents chunks =
      AiRoutes.anthropicStreamEvents [chunks.flatten] := by
  unfold AiRoutes.anthropicStreamEvents
  obtain ⟨h1, _⟩ := runChunks_spec chunks [] (by simp)
  obtain ⟨h2, _⟩ := runChunks_spec [chunks.flatten] [] (by simp)
  rw [h1, h2]
  simp

/-- C1 counterexample: the claude streaming branch of
src/unnamed/part_002 (lines 251-263) splits each chunk on newline with
no carry-over buffer, so a chunk boundary inside a `data: {...}` line
loses the TextDelta that a single-chunk delivery produces. -/
theorem chunk_boundary_cex :
    PartTwo.claudeStreamEvents [cexChunkA, cexChunkB] = [] ∧
    PartTwo.claudeStreamEvents [cexChunkA ++ cexChunkB] =
      [.textDelta (.jstr (cs "Hi"))] ∧
    PartTwo.claudeStreamEvents [cexChunkA, cexChunkB] ≠
      PartTwo.claudeStreamEvents [cexChunkA ++ cexChunkB] := by
  refine ⟨rfl, rfl, ?_⟩
  intro h
  rw [show PartTwo.claudeStreamEvents [cexChunkA, cexChunkB] = [] from rfl,
    show PartTwo.claudeStreamEvents [cexChunkA ++ cexChunkB] =
      [.textDelta (.jstr (cs "Hi"))] from rfl] at h
  exact List.noConfusion h

/-- C6: an SSE stream whose middle `data:` line has a payload that fails
JSON parsing yields exactly the TextDelta events of the two surrounding
valid lines; the malformed frame is dropped silently and no Error event
is ever produced by the line handler. -/
theorem malformed_frame_resilience (l1 lb l2 : List Char) (t1 t2 : Json)
    (h1 : AiRoutes.anthropicLineEvent l1 = some (.textDelta t1))
    (h2 : AiRoutes.anthropicLineEvent l2 = some (.textDelta t2))
    (hbd : leadsWith (cs "data: ") lb = true)
    (hbp : jsonParse (lb.drop 6) = none)
    (hn1 : '\n' ∉ l1) (hnb : '\n' ∉ lb) (hn2 : '\n' ∉ l2) :
    AiRoutes.anthropicStreamEvents [l1 ++ '\n' :: (lb ++ '\n' :: (l2 ++ ['\n']))] =
      [.textDelta t1, .textDelta t2] ∧
    ∀ e ∈ AiRoutes.anthropicStreamEvents
        [l1 ++ '\n' :: (lb ++ '\n' :: (l2 ++ ['\n']))],
      Event.isErr e = false := by
  have hlb : AiRoutes.anthropicLineEvent lb = none := by
    unfold AiRoutes.anthropicLineEvent
    rw [hbd]
    dsimp only
    by_cases hdone : lb.drop 6 = cs "[DONE]"
    · simp [hdone]
    · have hd : (List.drop 6 lb == cs "[DONE]") = false := by simp [hdone]
      simp [hd, hbp]
  have hlines : splitOnChar '\n' (l1 ++ '\n' :: (lb ++ '\n' :: (l2 ++ ['\n']))) =
      [l1, lb, l2, []] := by
    rw [splitOnChar_cons_sep _ hn1, splitOnChar_cons_sep _ hnb,
      show (['\n'] : List Char) = '\n' :: [] from rfl, splitOnChar_cons_sep _ hn2]
    rfl
  have hev : AiRoutes.anthropicStreamEvents
      [l1 ++ '\n' :: (lb ++ '\n' :: (l2 ++ ['\n']))] =
      [.textDelta t1, .textDelta t2] := by
    unfold AiRoutes.anthropicStreamEvents
    obtain ⟨hr, _⟩ :=
      runChunks_spec [l1 ++ '\n' :: (lb ++ '\n' :: (l2 ++ ['\n']))] [] (by simp)
    rw [hr]
    simp only [List.flatten_cons, List.flatten_nil, List.append_nil,
      List.nil_append]
    rw [hlines]
    simp [List.filterMap_cons, h1, h2, hlb]
  refine ⟨hev, ?_⟩
  intro e he
  rw [hev] at he
  rcases List.mem_cons.mp he with rfl | he2
  · rfl
  · rcases List.mem_cons.mp he2 with rfl | he3
    · rfl
    · cases he3

/-- C6 witness at concrete frames. -/
theorem malformed_frame_resilience_witness :
    AiRoutes.anthropicLineEvent validFrameA =
      some (.textDelta (.jstr (cs "A"))) ∧
    AiRoutes.anthropicLineEvent validFrameB =
      some (.textDelta (.jstr (cs "B"))) ∧
    leadsWith (cs "data: ") malformedFrame = true ∧
    jsonParse (malformedFrame.drop 6) = none ∧
    AiRoutes.anthropicStreamEvents
      [validFrameA ++ '\n' :: (malformedFrame ++ '\n' :: (validFrameB ++ ['\n']))] =
      [.textDelta (.jstr (cs "A")), .textDelta (.jstr (cs "B"))] :=
  ⟨rfl, rfl, rfl, rfl,
    (malformed_frame_resilience validFrameA malformedFrame validFrameB
      (.jstr (cs "A")) (.jstr (cs "B")) rfl rfl rfl rfl
      (by decide) (by decide) (by decide)).1⟩

/-- C8 (code bug): when the upstream body raises a stream error after
output has started, the connection receives the TextDelta events already
emitted and then *no terminal event at all* — the execution ends with no
Done and no Error frame on the wire, for every chunk history; in
particular, after the upstream delivered one valid delta frame and then
errored, the client has exactly one TextDelta and nothing terminal, so
it hangs.  This contradicts the claim (and the spec's requirement that
every error path after output has started ends with exactly one
terminal event); the cause is that src/server/routes/ai.js lines
135-160 register only `'data'` and `'end'` handlers, never `'error'`. -/
theorem stream_body_error_no_terminal (chunks : List (List Char))
    (msg : List Char) :
    (∀ e ∈ AiRoutes.streamRun (.bodyError chunks msg),
      Event.isTerminal e = false) ∧
    AiRoutes.streamRun
        (.bodyError [validFrameA ++ ['\n']] (cs "socket hang up")) =
      [.textDelta (.jstr (cs "A"))] := by
  constructor
  · intro e he
    obtain ⟨l, _, hl⟩ := List.mem_filterMap.mp he
    have hd := anthropicLineEvent_delta l e hl
    cases e with
    | textDelta t => rfl
    | done => exact absurd hd (by simp [Event.isDelta])
    | error m => exact absurd hd (by simp [Event.isDelta])
  · rfl

/-- C7: with no credential configured for any provider, `GET /models`
returns the empty list and `POST /chat` (with an absent or `auto` model)
answers with the explicit 500 "No AI provider configured" error payload
instead of throwing. -/
theorem no_credential_degrades (message : List Char) :
    AiRoutes.getModels Env.empty = [] ∧
    AiRoutes.chatDispatch none message Env.empty =
      .errorResp 500 (cs "No AI provider configured") ∧
    AiRoutes.chatDispatch (some (cs "auto")) message Env.empty =
      .errorResp 500 (cs "No AI provider configured") :=
  ⟨rfl, rfl, rfl⟩

/-- C10: the request body sent upstream contains exactly the last 10
messages of the supplied context (all of it when shorter) followed by
the new user message; all earlier context messages are dropped. -/
theorem context_last_ten (context : List Msg) (message : List Char) :
    ∃ dropped kept, context = dropped ++ kept ∧
      kept.length = min 10 context.length ∧
      AiRoutes.buildMessages context message =
        kept ++ [⟨cs "user", message⟩] := by
  refine ⟨context.take (context.length - 10),
    context.drop (context.length - 10),
    (List.take_append_drop _ _).symm, ?_, rfl⟩
  rw [List.length_drop]
  omega

/-- C3 counterexample: a bare model name is *not* looked up in the
provider model lists.  `gpt-4o` is in the openai registry entry and the
openai credential is present, yet the request resolves through the
keyword heuristic to `gpt-4o-mini`, not to `(openai, gpt-4o)`. -/
theorem bare_model_cex :
    (∃ cfg ∈ AiRoutes.PROVIDERS, cfg.name = cs "openai" ∧
      cs "gpt-4o" ∈ cfg.models ∧
      strTruthy (cfg.getKey ⟨none, some (cs "k"), none, none⟩) = true) ∧
    AiRoutes.pickModel (some (cs "gpt-4o")) (cs "hi")
      ⟨none, some (cs "k"), none, none⟩ =
      some ⟨cs "openai", cs "gpt-4o-mini"⟩ ∧
    AiRoutes.pickModel (some (cs "gpt-4o")) (cs "hi")
      ⟨none, some (cs "k"), none, none⟩ ≠
      some ⟨cs "openai", cs "gpt-4o"⟩ := by
  refine ⟨⟨AiRoutes.PROVIDERS.get ⟨1, by decide⟩,
    List.get_mem _ _ _, rfl, by decide, rfl⟩, by decide, by decide⟩

/-- C3 (amended): a bare model name (no `provider/` part, not `auto`,
non-empty) is ignored entirely — both route copies fall back to the
automatic keyword-based selection on the message. -/
theorem bare_model_falls_back (m message : List Char) (env : Env)
    (hne : m ≠ []) (hna : m ≠ cs "auto") (hslash : '/' ∉ m) :
    AiRoutes.pickModel (some m) message env =
      AiRoutes.selectModel message env ∧
    ServerIndex.parseModel (some m) message env =
      ServerIndex.selectModel message env := by
  have hsub : hasSub (cs "/") m = false := hasSub_single_false hslash
  constructor
  · have hcond : (!m.isEmpty && m != cs "auto") = true := by
      simp [List.isEmpty_iff, hne, bne_iff_ne, hna]
    simp [AiRoutes.pickModel, hcond, hsub]
  · have hcond : (!strTruthy (some m) || some m == some (cs "auto")) = false := by
      simp [strTruthy, List.isEmpty_iff, hne, hna]
    simp [ServerIndex.parseModel, hcond, hsub]

/-- C3 amended witness. -/
theorem bare_model_falls_back_witness :
    cs "gpt-4o" ≠ ([] : List Char) ∧ cs "gpt-4o" ≠ cs "auto" ∧
    '/' ∉ cs "gpt-4o" ∧
    AiRoutes.pickModel (some (cs "gpt-4o")) (cs "hi")
        ⟨none, some (cs "k"), none, none⟩ =
      AiRoutes.selectModel (cs "hi") ⟨none, some (cs "k"), none, none⟩ :=
  ⟨by decide, by decide, by decide,
    (bare_model_falls_back (cs "gpt-4o") (cs "hi")
      ⟨none, some (cs "k"), none, none⟩
      (by decide) (by decide) (by decide)).1⟩

/-- C4 counterexample: a `provider/model` request is honoured verbatim
with *no* credential check: with an entirely empty credential set (where
automatic selection yields nothing), `openai/gpt-4o` still resolves to
the verbatim pair. -/
theorem slash_no_credential_cex :
    AiRoutes.pickModel (some (cs "openai/gpt-4o")) (cs "hi") Env.empty =
      some ⟨cs "openai", cs "gpt-4o"⟩ ∧
    strTruthy Env.empty.openaiKey = false ∧
    AiRoutes.selectModel (cs "hi") Env.empty = none := by
  decide

/-- C4 (amended): for a `provider/model` request the verbatim pair is
used if and only if the provider exists in the registry — the model part
is passed through unchecked and credential presence plays no role. -/
theorem slash_model_registry_only (p m message : List Char) (env : Env)
    (hp : '/' ∉ p) (hm : '/' ∉ m) (hpn : p ≠ []) (hpa : p ≠ cs "auto") :
    AiRoutes.pickModel (some (p ++ '/' :: m)) message env =
      (if AiRoutes.registryHas p then some ⟨p, m⟩
       else AiRoutes.selectModel message env) := by
  have hnn : (p ++ '/' :: m) ≠ [] := by cases p <;> simp
  have hna : (p ++ '/' :: m) ≠ cs "auto" := by
    intro h
    have hmem : '/' ∈ (p ++ '/' :: m) := by simp
    rw [h] at hmem
    exact absurd hmem (by decide)
  have hsub : hasSub (cs "/") (p ++ '/' :: m) = true :=
    hasSub_single_true (by simp)
  have hsplit : splitOnChar '/' (p ++ '/' :: m) = [p, m] := by
    rw [splitOnChar_cons_sep m hp, splitOnChar_sep_free hm]
  have hcond : (!(p ++ '/' :: m).isEmpty && (p ++ '/' :: m) != cs "auto") = true := by
    simp [List.isEmpty_iff, hnn, bne_iff_ne, hna]
  have hpa2 : (p != cs "auto") = true := by simp [bne_iff_ne, hpa]
  simp [AiRoutes.pickModel, hcond, hsub, hsplit, hpa2, List.getD]

/-- C4 amended witness. -/
theorem slash_model_registry_only_witness :
    '/' ∉ cs "openai" ∧ '/' ∉ cs "gpt-4o" ∧
    cs "openai" ≠ ([] : List Char) ∧ cs "openai" ≠ cs "auto" ∧
    AiRoutes.pickModel (some (cs "openai" ++ '/' :: cs "gpt-4o")) (cs "hi")
        Env.empty =
      (if AiRoutes.registryHas (cs "openai")
       then some ⟨cs "openai", cs "gpt-4o"⟩
       else AiRoutes.selectModel (cs "hi") Env.empty) :=
  ⟨by decide, by decide, by decide, by decide,
    slash_model_registry_only (cs "openai") (cs "gpt-4o") (cs "hi") Env.empty
      (by decide) (by decide) (by decide) (by decide)⟩

set_option maxRecDepth 8000 in
/-- C5 counterexample: task length plays no role in model selection.  A
501-character keyword-free task — which the claim classifies as `high`
— selects the small (non-complex) model, identical to a 99-character
task which the claim classifies as `low`. -/
theorem length_classification_cex :
    AiRoutes.selectModel (List.replicate 501 'z')
        ⟨some (cs "k"), none, none, none⟩ =
      some ⟨cs "anthropic", cs "claude-3-5-haiku-20241022"⟩ ∧
    AiRoutes.selectModel (List.replicate 99 'z')
        ⟨some (cs "k"), none, none, none⟩ =
      some ⟨cs "anthropic", cs "claude-3-5-haiku-20241022"⟩ ∧
    cs "claude-3-5-haiku-20241022" ≠ cs "claude-sonnet-4-20250514" := by
  refine ⟨?_, ?_, by decide⟩ <;> rfl

/-- C5 (amended): for every task string containing no complexity
keyword, both `selectModel` copies classify the task as not complex and
behave identically to the empty task — string length never enters the
classification. -/
theorem keyword_free_classification (message : List Char) (env : Env)
    (hai : ∀ k ∈ AiRoutes.complexKeywords,
      hasSub k (message.map Char.toLower) = false)
    (hsi : ∀ k ∈ ServerIndex.complexKeywords,
      hasSub k (message.map Char.toLower) = false) :
    AiRoutes.isComplex message = false ∧
    ServerIndex.isComplex message = false ∧
    AiRoutes.selectModel message env = AiRoutes.selectModel [] env ∧
    ServerIndex.selectModel message env = ServerIndex.selectModel [] env := by
  have h1 : AiRoutes.isComplex message = false := by
    unfold AiRoutes.isComplex
    rw [List.any_eq_false]
    intro k hk
    simp [hai k hk]
  have h2 : ServerIndex.isComplex message = false := by
    unfold ServerIndex.isComplex
    rw [List.any_eq_false]
    intro k hk
    simp [hsi k hk]
  have h10 : AiRoutes.isComplex [] = false := by decide
  have h20 : ServerIndex.isComplex [] = false := by decide
  refine ⟨h1, h2, ?_, ?_⟩
  · unfold AiRoutes.selectModel
    rw [h1, h10]
  · unfold ServerIndex.selectModel
    rw [h2, h20]

set_option maxRecDepth 8000 in
/-- C5 amended witness at the 501-character keyword-free task. -/
theorem keyword_free_classification_witness :
    (∀ k ∈ AiRoutes.complexKeywords,
      hasSub k ((List.replicate 501 'z').map Char.toLower) = false) ∧
    AiRoutes.isComplex (List.replicate 501 'z') = false ∧
    AiRoutes.selectModel (List.replicate 501 'z')
        ⟨some (cs "k"), none, none, none⟩ =
      AiRoutes.selectModel [] ⟨some (cs "k"), none, none, none⟩ :=
  ⟨by decide,
    (keyword_free_classification (List.replicate 501 'z')
      ⟨some (cs "k"), none, none, none⟩ (by decide) (by decide)).1,
    (keyword_free_classification (List.replicate 501 'z')
      ⟨some (cs "k"), none, none, none⟩ (by decide) (by decide)).2.2.1⟩

/-- C2 counterexample: the gemini branch of `router.post('/stream')` in
src/server/index.js performs one blocking `generateContent` call and
relays the whole text `"Hello world foo"` as a single TextDelta followed
by Done — it does not emit one TextDelta per whitespace-separated word. -/
theorem gemini_word_split_cex :
    ServerIndex.geminiStreamEvents (mkGeminiResp (cs "Hello world foo")) =
      [.textDelta (.jstr (cs "Hello world foo")), .done] ∧
    ServerIndex.geminiStreamEvents (mkGeminiResp (cs "Hello world foo")) ≠
      [.textDelta (.jstr (cs "Hello ")), .textDelta (.jstr (cs "world ")),
       .textDelta (.jstr (cs "foo ")), .done] := by
  refine ⟨rfl, ?_⟩
  intro h
  have hlen := congrArg List.length h
  rw [show ServerIndex.geminiStreamEvents (mkGeminiResp (cs "Hello world foo")) =
    [.textDelta (.jstr (cs "Hello world foo")), .done] from rfl] at hlen
  simp at hlen

/-- C2 (amended): for any non-empty full response text, the gemini
stream branch emits exactly one TextDelta carrying the entire text,
followed by Done. -/
theorem gemini_single_delta (t : List Char) (h : t ≠ []) :
    ServerIndex.geminiStreamEvents (mkGeminiResp t) =
      [.textDelta (.jstr t), .done] := by
  have he : t.isEmpty = false := by simp [List.isEmpty_iff, h]
  show [Event.textDelta
    (if (!t.isEmpty) = true then Json.jstr t else Json.jstr (cs "No response")),
    Event.done] = _
  rw [he]
  rfl

/-- C2 amended witness. -/
theorem gemini_single_delta_witness :
    cs "Hello world foo" ≠ ([] : List Char) ∧
    ServerIndex.geminiStreamEvents (mkGeminiResp (cs "Hello world foo")) =
      [.textDelta (.jstr (cs "Hello world foo")), .done] :=
  ⟨by decide, gemini_single_delta (cs "Hello world foo") (by decide)⟩

/-- C9 counterexample: in the gemini streaming branch of
src/server/routes/ai.js the system prompt is *not* carried in a separate
system-instruction field — the request has no such field and instead
prepends the prompt to `contents` as a user message. -/
theorem gemini_system_message_cex :
    (AiRoutes.geminiStreamReq (cs "gemini-1.5-pro") (cs "KEY")
      [⟨cs "assistant", cs "hi"⟩]).systemInstruction = none ∧
    (AiRoutes.geminiStreamReq (cs "gemini-1.5-pro") (cs "KEY")
      [⟨cs "assistant", cs "hi"⟩]).contents.headD ⟨[], []⟩ =
      ⟨cs "user", [AiRoutes.SYSTEM_PROMPT]⟩ :=
  ⟨rfl, rfl⟩

/-- C9 (amended): the Gemini translation renames `assistant`→`model`,
wraps each message as `{role, parts:[{text}]}`, and templates the URL
with the model as a path segment plus the API key as a query parameter
with no auth header; in the part_002 chat branch the system prompt
travels in the separate `systemInstruction` field, whereas the
routes/ai.js streaming branch instead prepends it to `contents` as a
user message (see the counterexample). -/
theorem gemini_translation (modelId : List Char) (messages : List Msg) (i : Nat)
    (h : i < messages.length) :
    (PartTwo.geminiChatReq modelId messages).contents.length =
      messages.length ∧
    ((PartTwo.geminiChatReq modelId messages).contents.getD i ⟨[], []⟩).role =
      (if (messages.getD i ⟨[], []⟩).role = cs "assistant" then cs "model"
       else cs "user") ∧
    ((PartTwo.geminiChatReq modelId messages).contents.getD i ⟨[], []⟩).parts =
      [(messages.getD i ⟨[], []⟩).content] ∧
    (PartTwo.geminiChatReq modelId messages).systemInstruction =
      some [PartTwo.SYSTEM_PROMPT] ∧
    (PartTwo.geminiChatReq modelId messages).url =
      cs "https://generativelanguage.googleapis.com/v1beta/models/" ++
        modelId ++ cs ":generateContent?key=" ++ PartTwo.GEMINI_KEY ∧
    (∀ hd ∈ (PartTwo.geminiChatReq modelId messages).headers,
      hd.1 ≠ cs "Authorization" ∧ hd.1 ≠ cs "x-api-key") := by
  have hm : i < (messages.map (fun m : Msg =>
      (⟨if m.role == cs "assistant" then cs "model" else cs "user",
        [m.content]⟩ : GContent))).length := by simpa using h
  refine ⟨by simp [PartTwo.geminiChatReq], ?_, ?_, rfl, rfl, ?_⟩
  · simp only [PartTwo.geminiChatReq]
    rw [List.getD_eq_getElem?_getD, List.getElem?_eq_getElem hm,
      List.getD_eq_getElem?_getD, List.getElem?_eq_getElem h]
    simp only [List.getElem_map, Option.getD_some]
    split
    · rename_i hcond
      simp only [beq_iff_eq] at hcond
      rw [if_pos hcond]
    · rename_i hcond
      simp only [beq_iff_eq] at hcond
      rw [if_neg hcond]
  · simp only [PartTwo.geminiChatReq]
    rw [List.getD_eq_getElem?_getD, List.getElem?_eq_getElem hm,
      List.getD_eq_getElem?_getD, List.getElem?_eq_getElem h]
    simp only [List.getElem_map, Option.getD_some]
  · intro hd hmem
    simp only [PartTwo.geminiChatReq, List.mem_singleton] at hmem
    subst hmem
    exact ⟨by decide, by decide⟩

/-- C9 amended witness. -/
theorem gemini_translation_witness :
    0 < ([⟨cs "assistant", cs "hi"⟩] : List Msg).length ∧
    ((PartTwo.geminiChatReq (cs "gemini-2.5-flash")
        [⟨cs "assistant", cs "hi"⟩]).contents.getD 0 ⟨[], []⟩).role =
      (if (([⟨cs "assistant", cs "hi"⟩] : List Msg).getD 0 ⟨[], []⟩).role =
          cs "assistant" then cs "model" else cs "user") ∧
    (PartTwo.geminiChatReq (cs "gemini-2.5-flash")
        [⟨cs "assistant", cs "hi"⟩]).systemInstruction =
      some [PartTwo.SYSTEM_PROMPT] :=
  ⟨by decide,
    (gemini_translation (cs "gemini-2.5-flash") [⟨cs "assistant", cs "hi"⟩] 0
      (by decide)).2.1,
    (gemini_translation (cs "gemini-2.5-flash") [⟨cs "assistant", cs "hi"⟩] 0
      (by decide)).2.2.2.1⟩

end Nebula
